import Mathlib

/-!
Shallow embedding of the todos_and_auth_with_fastapi repository.

The repository is a FastAPI CRUD service over SQLAlchemy with JWT bearer
authentication.  The embedding models:

* the relational store as two lists of rows (`Store`), with the repository
  lookups (`select ... where ... first/all`) as `List.find?`/`List.filter`;
* JWT tokens symbolically: `jwt.encode(data, key, alg)` produces a signed
  token carrying its claims, algorithm and signing key, and
  `jwt.decode(token, key, algorithms)` succeeds exactly when the token is a
  well-formed JWT whose algorithm is in the accepted list and whose signature
  was produced with the same key (python-jose raises `JWTError` otherwise);
  any non-JWT string (including the empty / absent token) enters the model as
  `Token.malformed`;
* bcrypt through its interface contract: `hashpw` salts (the salt seed is an
  explicit parameter standing for `bcrypt.gensalt()` randomness) and embeds
  the password one-way, `checkpw p h` is true precisely when `h` was produced
  by hashing `p`;
* effectful CRUD functions as functions from the store to (new store, result);
  Python exceptions that escape a function before `commit` are modelled as an
  `Except.error` result paired with the unchanged store.
-/

namespace TodoApi

/-- A JSON claim value as stored in a JWT payload: `null` or a string. -/
inductive JValue where
  | null
  | str (s : String)
deriving DecidableEq, Repr

/-- config.py `Settings`: only the keys the authentication core consults. -/
structure Settings where
  SECRET_KEY : String
  ALGORITHM : String
deriving DecidableEq, Repr

/-- A structurally well-formed JWT: header algorithm, payload claims, and the
key that produced its signature. -/
structure SignedToken where
  alg : String
  claims : List (String × JValue)
  key : String
deriving DecidableEq, Repr

/-- A bearer token string: either a well-formed JWT or any other string
(malformed, tampered, empty, or absent — python-jose cannot parse those). -/
inductive Token where
  | signed (t : SignedToken)
  | malformed (raw : String)
deriving DecidableEq, Repr

/-- Rendering of a claims dictionary inside the serialized JWT. -/
def renderClaims (claims : List (String × JValue)) : String :=
  String.intercalate ","
    (claims.map (fun kv =>
      kv.1 ++ ":" ++ (match kv.2 with | JValue.null => "null" | JValue.str s => s)))

/-- The serialized string form of a token.  A well-formed JWT is always the
dot-joined header, payload and signature segments, so it is never the empty
string; a malformed token renders as its raw text. -/
def Token.encodeStr : Token → String
  | Token.malformed raw => raw
  | Token.signed t =>
      "eyJ" ++ t.alg ++ "." ++ renderClaims t.claims ++ "." ++
        "sig(" ++ t.alg ++ "," ++ renderClaims t.claims ++ "," ++ t.key ++ ")"

/-- jose `jwt.encode(data, key, algorithm)`: sign the claims with the key. -/
def jwt_encode (data : List (String × JValue)) (key : String) (alg : String) : Token :=
  Token.signed ⟨alg, data, key⟩

/-- jose `jwt.decode(token, key, algorithms)`: returns the payload when the
token parses as a JWT, its header algorithm is accepted and its signature
verifies under `key`; raises `JWTError` (modelled as `Except.error`) in every
other case. -/
def jwt_decode (token : Token) (key : String) (algorithms : List String) :
    Except Unit (List (String × JValue)) :=
  match token with
  | Token.malformed _ => Except.error ()
  | Token.signed t =>
      if t.alg ∈ algorithms ∧ t.key = key then Except.ok t.claims
      else Except.error ()

/-- app/lib/utils.py `create_access_token` (duplicated verbatim in
app/crud/auth.py): encode the claims with the configured secret and
algorithm.  `data.copy()` is the identity in a pure model. -/
def create_access_token (data : List (String × JValue)) (settings : Settings) : Token :=
  jwt_encode data settings.SECRET_KEY settings.ALGORITHM

/-- Python `payload.get(k)`: the value stored under `k`, if any. -/
def payload_get (payload : List (String × JValue)) (k : String) : Option JValue :=
  (payload.find? (fun kv => kv.1 == k)).map (fun kv => kv.2)

/-- app/models/user.py `User` row. -/
structure UserRec where
  id : String
  username : String
  email : String
  hashed_password : String
  created_at : Nat
deriving DecidableEq, Repr

/-- app/models/todo.py `ToDo` row. -/
structure ToDoRec where
  id : String
  title : String
  description : Option String
  state : String
  created_at : Nat
  user_id : String
deriving DecidableEq, Repr

/-- The relational store: the `users` and `todos` tables, in insertion order. -/
structure Store where
  users : List UserRec
  todos : List ToDoRec
deriving DecidableEq, Repr

/-- app/crud/user.py `get_user_by_username`:
`select(User).where(User.username == username)` then `.first()`. -/
def get_user_by_username (db : Store) (username : String) : Option UserRec :=
  db.users.find? (fun u => u.username == username)

/-- app/crud/user.py `get_user_by_email`. -/
def get_user_by_email (db : Store) (email : String) : Option UserRec :=
  db.users.find? (fun u => u.email == email)

/-- app/crud/todo.py `get_todo_by_id`. -/
def get_todo_by_id (db : Store) (todo_id : String) : Option ToDoRec :=
  db.todos.find? (fun t => t.id == todo_id)

/-- app/crud/todo.py `get_todos_by_user`: filter by owner, offset, limit. -/
def get_todos_by_user (db : Store) (user_id : String) (skip : Nat) (limit : Nat) :
    List ToDoRec :=
  (((db.todos.filter (fun t => t.user_id == user_id)).drop skip).take limit)

/-- The authenticated-identity context returned by `get_current_user`:
exactly the `{"id": ..., "email": ...}` dictionary, nothing else. -/
structure AuthIdentity where
  id : String
  email : String
deriving DecidableEq, Repr

/-- fastapi `HTTPException` as raised by the routers and the auth dependency. -/
structure HTTPException where
  status_code : Nat
  detail : String
  headers : List (String × String)
deriving DecidableEq, Repr

/-- app/crud/auth.py `credentials_exception`. -/
def credentials_exception : HTTPException :=
  ⟨401, "Invalid credentials", [("WWW-Authenticate", "Bearer")]⟩

/-- app/crud/auth.py `get_current_user`: decode the token with the configured
secret and algorithm list `[settings.ALGORITHM]`; take `payload.get("sub")`
as the username, rejecting an absent or null subject; look the user up by
username; return `{"id": user.id, "email": user.email}`.  Every failure
raises the single `credentials_exception`.  An empty or absent bearer token
enters as `Token.malformed`. -/
def get_current_user (token : Token) (db : Store) (settings : Settings) :
    Except HTTPException AuthIdentity :=
  match jwt_decode token settings.SECRET_KEY [settings.ALGORITHM] with
  | Except.error _ => Except.error credentials_exception
  | Except.ok payload =>
      match payload_get payload "sub" with
      | some (JValue.str username) =>
          match get_user_by_username db username with
          | none => Except.error credentials_exception
          | some user => Except.ok ⟨user.id, user.email⟩
      | _ => Except.error credentials_exception

/-- Model of `bcrypt.gensalt()`: a salt derived from the random seed.  The
salt alphabet deliberately excludes the separator character. -/
def bcrypt_gensalt (seed : Nat) : List Char := List.replicate seed 's'

/-- Interface contract of `bcrypt.hashpw(password, gensalt())`: a salted
one-way hash.  The model renders it as salt, separator, password so that
`bcrypt_checkpw` can be the faithful total check below; no property proved
here depends on the hash hiding its input. -/
def bcrypt_hashpw (password : String) (seed : Nat) : String :=
  String.mk (bcrypt_gensalt seed ++ '$' :: password.toList)

/-- Split a character list at its first separator, if any. -/
def splitAtDollar : List Char → Option (List Char × List Char)
  | [] => none
  | c :: cs =>
      if c = '$' then some ([], cs)
      else match splitAtDollar cs with
        | none => none
        | some p => some (c :: p.1, p.2)

/-- Interface contract of `bcrypt.checkpw(password, hashed)`: true exactly
when `hashed` was produced by `bcrypt_hashpw password` under some salt. -/
def bcrypt_checkpw (password : String) (hashed : String) : Bool :=
  match splitAtDollar hashed.toList with
  | none => false
  | some p => p.2 == password.toList

/-- app/crud/user.py `authenticate_user`: look the user up by username; on a
miss, or when `bcrypt.checkpw` rejects the password, return `False` (here
`none`); otherwise return the user row. -/
def authenticate_user (db : Store) (username : String) (password : String) :
    Option UserRec :=
  match get_user_by_username db username with
  | none => none
  | some user =>
      if !(bcrypt_checkpw password user.hashed_password) then none
      else some user

/-- The `{"access_token": ..., "token_type": ...}` body returned by login. -/
structure TokenResponse where
  access_token : Token
  token_type : String
deriving DecidableEq, Repr

/-- app/routers/auth.py `login_for_access_token`: authenticate the form
credentials; on failure raise 401 with a bearer challenge header; on success
issue a token with the username as `sub` and return it with type bearer. -/
def login_for_access_token (username password : String) (db : Store)
    (settings : Settings) : Except HTTPException TokenResponse :=
  match authenticate_user db username password with
  | none =>
      Except.error ⟨401, "Usuario o contraseña incorrectos",
        [("WWW-Authenticate", "Bearer")]⟩
  | some user =>
      Except.ok ⟨create_access_token [("sub", JValue.str user.username)] settings,
        "bearer"⟩

/-- app/schemas/todo.py `TodoCreate` after validation: `title: str`,
`description: Optional[str] = None`,
`state: Literal["pendiente", "completado"] = "pendiente"`. -/
structure TodoCreate where
  title : String
  description : Option String
  state : String
deriving DecidableEq, Repr

/-- The raw creation request body before pydantic validation: each field
either present with a string value or absent. -/
structure TodoCreateInput where
  title : Option String
  description : Option String
  state : Option String
deriving DecidableEq, Repr

/-- Pydantic validation of `TodoCreate`: `title` is required (no other
constraint on it — in particular no length bound); `state`, when present,
must be one of the two `Literal` values and defaults to `"pendiente"`;
`description` is optional with no constraint. -/
def TodoCreate.validate (i : TodoCreateInput) : Option TodoCreate :=
  match i.title with
  | none => none
  | some t =>
      match i.state with
      | none => some ⟨t, i.description, "pendiente"⟩
      | some s =>
          if s = "pendiente" ∨ s = "completado" then some ⟨t, i.description, s⟩
          else none

/-- app/schemas/todo.py `TodoUpdate`: all three fields `Optional[str] = None`
— note that `state` here is an unconstrained `str`, not the creation-time
`Literal`.  `none` stands for a field left unset, which
`model_dump(exclude_unset=True)` drops from the merge. -/
structure TodoUpdate where
  title : Option String
  description : Option String
  state : Option String
deriving DecidableEq, Repr

/-- app/crud/todo.py `create_user_todo`: build a `ToDo` row from the
validated fields plus the caller's `user_id`; the generated primary key and
the server-assigned timestamp are explicit parameters; `add` + `commit`
appends the row. -/
def create_user_todo (db : Store) (todo : TodoCreate) (user_id : String)
    (new_id : String) (now : Nat) : Store × ToDoRec :=
  let db_todo : ToDoRec := ⟨new_id, todo.title, todo.description, todo.state, now, user_id⟩
  ({ db with todos := db.todos ++ [db_todo] }, db_todo)

/-- The `exclude_unset` field-by-field merge performed by `update_todo`:
`setattr` for exactly the fields set in the patch. -/
def TodoUpdate.apply (p : TodoUpdate) (t : ToDoRec) : ToDoRec :=
  { t with
    title := p.title.getD t.title
    description := match p.description with
      | none => t.description
      | some d => some d
    state := p.state.getD t.state }

/-- app/crud/todo.py `update_todo`: fetch by id; when absent return `None`
and touch nothing; otherwise `setattr` the set fields and `commit`, which
updates the row with that primary key. -/
def update_todo (db : Store) (todo_id : String) (todo_update : TodoUpdate) :
    Store × Option ToDoRec :=
  match get_todo_by_id db todo_id with
  | none => (db, none)
  | some t =>
      let t2 := todo_update.apply t
      ({ db with todos := db.todos.map (fun x => if x.id == todo_id then t2 else x) },
       some t2)

/-- app/crud/todo.py `delete_todo`: fetch by id; when absent return `None`
and touch nothing; otherwise delete the row and `commit`. -/
def delete_todo (db : Store) (todo_id : String) : Store × Option ToDoRec :=
  match get_todo_by_id db todo_id with
  | none => (db, none)
  | some t =>
      ({ db with todos := db.todos.filter (fun x => !(x.id == todo_id)) }, some t)

/-- app/routers/todo.py: the uniform `HTTPException(404, "Todo not found")`. -/
def todo_not_found : HTTPException := ⟨404, "Todo not found", []⟩

/-- app/routers/todo.py `read_todo`: fetch by id; 404 when the todo is
absent or its `user_id` differs from the authenticated identity. -/
def read_todo (db : Store) (todo_id : String) (current_user : AuthIdentity) :
    Except HTTPException ToDoRec :=
  match get_todo_by_id db todo_id with
  | none => Except.error todo_not_found
  | some todo =>
      if todo.user_id ≠ current_user.id then Except.error todo_not_found
      else Except.ok todo

/-- app/routers/todo.py `update_todo_item`: the same ownership check as
`read_todo`, then the crud `update_todo`. -/
def update_todo_item (db : Store) (todo_id : String) (todo_update : TodoUpdate)
    (current_user : AuthIdentity) : Store × Except HTTPException (Option ToDoRec) :=
  match get_todo_by_id db todo_id with
  | none => (db, Except.error todo_not_found)
  | some todo =>
      if todo.user_id ≠ current_user.id then (db, Except.error todo_not_found)
      else
        let r := update_todo db todo_id todo_update
        (r.1, Except.ok r.2)

/-- app/routers/todo.py `delete_todo_item`: the same ownership check, then
the crud `delete_todo` and a success message. -/
def delete_todo_item (db : Store) (todo_id : String) (current_user : AuthIdentity) :
    Store × Except HTTPException String :=
  match get_todo_by_id db todo_id with
  | none => (db, Except.error todo_not_found)
  | some todo =>
      if todo.user_id ≠ current_user.id then (db, Except.error todo_not_found)
      else
        let r := delete_todo db todo_id
        (r.1, Except.ok "Todo deleted successfully")

/-- app/schemas/user.py `UserUpdate`: `username: Optional[str] = None`,
`password: Optional[str] = None`; `none` is an unset field. -/
structure UserUpdate where
  username : Option String
  password : Option String
deriving DecidableEq, Repr

/-- A Python exception escaping a crud function before any commit. -/
inductive PyError where
  | attributeError
deriving DecidableEq, Repr

/-- A database error surfaced by SQLAlchemy at flush/commit time. -/
inductive DBError where
  | integrityError
deriving DecidableEq, Repr

/-- app/crud/user.py `update_user`: fetch by email, then — before checking
anything — evaluate `bcrypt.hashpw(user_update.password.encode("utf-8"),
bcrypt.gensalt())`.  When the patch's `password` is unset that attribute is
`None` and `None.encode` raises `AttributeError`, so the function aborts
with no write.  Otherwise, when the user exists, merge the set fields
(`password` lands in `hashed_password` as the fresh hash) and commit. -/
def update_user (db : Store) (seed : Nat) (user_email : String)
    (user_update : UserUpdate) : Store × Except PyError (Option UserRec) :=
  let db_user := get_user_by_email db user_email
  match user_update.password with
  | none => (db, Except.error PyError.attributeError)
  | some pw =>
      let hashed := bcrypt_hashpw pw seed
      match db_user with
      | none => (db, Except.ok none)
      | some u =>
          let u2 : UserRec :=
            { u with
              username := user_update.username.getD u.username
              hashed_password := hashed }
          ({ db with users := db.users.map (fun x => if x.id == u.id then u2 else x) },
           Except.ok (some u2))

/-- SQLAlchemy unit-of-work semantics for `session.delete(user)` under
app/models/user.py: the `todos` relationship is declared as
`relationship("ToDo", back_populates="user")` with no delete cascade, and
`ToDo.user_id` is `ForeignKey("users.id"), nullable=False` with no
`ondelete`.  On parent delete the ORM therefore nulls the children's foreign
key, and the NOT NULL constraint makes the flush fail with an
`IntegrityError` whenever the user still owns todos; only a todo-less user
row is actually deleted. -/
def session_delete_user (db : Store) (u : UserRec) : Except DBError Store :=
  if db.todos.any (fun t => t.user_id == u.id) then Except.error DBError.integrityError
  else Except.ok { db with users := db.users.filter (fun x => !(x.id == u.id)) }

/-- app/crud/user.py `delete_user`: fetch by email; when absent return
`None`; otherwise `session.delete` + `commit` under the flush semantics
above. -/
def delete_user (db : Store) (user_email : String) :
    Store × Except DBError (Option UserRec) :=
  match get_user_by_email db user_email with
  | none => (db, Except.ok none)
  | some u =>
      match session_delete_user db u with
      | Except.error e => (db, Except.error e)
      | Except.ok db2 => (db2, Except.ok (some u))

/-! Concrete fixtures, mirroring the repository's conftest.py fixtures. -/

/-- conftest.py mocked settings: secret `test_secret_key`, algorithm HS256. -/
def demoSettings : Settings := ⟨"test_secret_key", "HS256"⟩

/-- conftest.py `test_user` (hash made concrete through the bcrypt model). -/
def demoUser : UserRec :=
  ⟨"user123", "testuser", "test@example.com", bcrypt_hashpw "secret123" 3, 0⟩

/-- A second user, as in conftest.py `other_user`. -/
def otherUser : UserRec :=
  ⟨"user456", "otheruser", "other@example.com", bcrypt_hashpw "hunter2" 4, 0⟩

/-- conftest.py `test_todo`, owned by `demoUser`. -/
def demoTodo : ToDoRec :=
  ⟨"todo123", "Test Todo", some "Test Description", "pendiente", 1, "user123"⟩

/-- A store holding both users and `demoUser`'s todo. -/
def demoStore : Store := ⟨[demoUser, otherUser], [demoTodo]⟩

/-- The authenticated identity of `demoUser`. -/
def demoIdentity : AuthIdentity := ⟨"user123", "test@example.com"⟩

/-- The authenticated identity of `otherUser`. -/
def otherIdentity : AuthIdentity := ⟨"user456", "other@example.com"⟩

/-- The demo store before any todo exists, for the creation scenarios. -/
def demoStoreNoTodos : Store := ⟨[demoUser, otherUser], []⟩

/-- A 101-character title. -/
def longTitle : String := String.mk (List.replicate 101 'a')

/-! Helper lemmas. -/

/-- `find?` over a list rewritten at the matched key: the first hit of the
update predicate becomes the replacement row. -/
theorem find?_map_update {α : Type} (p : α → Bool) (l : List α) (t t2 : α)
    (h : l.find? p = some t) (h2 : p t2 = true) :
    (l.map (fun x => if p x then t2 else x)).find? p = some t2 := by
  induction l with
  | nil => simp at h
  | cons a as ih =>
      cases hpa : p a with
      | true =>
          rw [List.find?_cons_of_pos _ hpa] at h
          simp only [List.map_cons, if_pos hpa]
          rw [List.find?_cons_of_pos _ h2]
      | false =>
          have hna : ¬ p a = true := by simp [hpa]
          rw [List.find?_cons_of_neg _ hna] at h
          simp only [List.map_cons, if_neg hna]
          rw [List.find?_cons_of_neg _ hna]
          exact ih h

/-- `find?` returning a hit means the hit satisfies the predicate. -/
theorem find?_pred {α : Type} (p : α → Bool) (l : List α) (a : α)
    (h : l.find? p = some a) : p a = true :=
  List.find?_some h

/-- Splitting the model hash at its separator recovers salt and password. -/
theorem splitAtDollar_hash (n : Nat) (rest : List Char) :
    splitAtDollar (List.replicate n 's' ++ '$' :: rest) =
      some (List.replicate n 's', rest) := by
  induction n with
  | zero => simp [splitAtDollar]
  | succ n ih =>
      rw [List.replicate_succ, List.cons_append]
      simp [splitAtDollar, ih]

/-- bcrypt contract, positive direction: a password verifies against its own
hash, whatever the salt. -/
theorem bcrypt_checkpw_hashpw (password : String) (seed : Nat) :
    bcrypt_checkpw password (bcrypt_hashpw password seed) = true := by
  simp [bcrypt_checkpw, bcrypt_hashpw, bcrypt_gensalt, splitAtDollar_hash]

/-- bcrypt contract, negative direction: only the hashed password verifies. -/
theorem bcrypt_checkpw_hashpw_ne (p q : String) (seed : Nat) (h : p ≠ q) :
    bcrypt_checkpw q (bcrypt_hashpw p seed) = false := by
  simp only [bcrypt_checkpw, bcrypt_hashpw, bcrypt_gensalt]
  rw [show (String.mk (List.replicate seed 's' ++ '$' :: p.toList)).toList =
        List.replicate seed 's' ++ '$' :: p.toList from rfl]
  rw [splitAtDollar_hash]
  simp only [beq_eq_false_iff_ne, ne_eq]
  intro hc
  exact h (by
    have := congrArg String.mk hc
    simpa using this)

/-- A serialized well-formed JWT is never the empty string. -/
theorem encodeStr_signed_ne_empty (t : SignedToken) :
    Token.encodeStr (Token.signed t) ≠ "" := by
  intro h
  have hl := congrArg String.length h
  simp only [Token.encodeStr, String.length_append] at hl
  have hdot : (".").length = 1 := rfl
  have hcomma : (",").length = 1 := rfl
  have hnil : ("").length = 0 := rfl
  omega

/-- C3: token round-trip — for every non-empty username `u`, decoding the
token issued by `create_access_token {sub: u}` with the same configured
secret and algorithm succeeds, and the resulting claims' `sub` equals `u`. -/
theorem token_round_trip (st : Settings) (u : String) (_hnonempty : u ≠ "") :
    jwt_decode (create_access_token [("sub", JValue.str u)] st) st.SECRET_KEY
        [st.ALGORITHM] = Except.ok [("sub", JValue.str u)] ∧
    payload_get [("sub", JValue.str u)] "sub" = some (JValue.str u) := by
  constructor
  · simp [jwt_decode, create_access_token, jwt_encode]
  · simp [payload_get]

/-- Witness for `token_round_trip` at username `alice`. -/
theorem token_round_trip_witness :
    jwt_decode (create_access_token [("sub", JValue.str "alice")] demoSettings)
        demoSettings.SECRET_KEY [demoSettings.ALGORITHM] =
      Except.ok [("sub", JValue.str "alice")] :=
  (token_round_trip demoSettings "alice" (by decide)).1

/-- C10: on a patch whose `password` field is unset, `update_user` raises
`AttributeError` (from `None.encode`) before any write; the store — and in
particular the stored user row — is returned unchanged. -/
theorem update_user_unset_password_aborts (db : Store) (seed : Nat)
    (email : String) (p : UserUpdate) (hp : p.password = none) :
    update_user db seed email p = (db, Except.error PyError.attributeError) := by
  simp [update_user, hp]

/-- Witness for `update_user_unset_password_aborts`: a username-only patch
against the demo store aborts and leaves the store untouched. -/
theorem update_user_unset_password_aborts_witness :
    update_user demoStore 3 "test@example.com" ⟨some "updateduser", none⟩ =
      (demoStore, Except.error PyError.attributeError) :=
  update_user_unset_password_aborts demoStore 3 "test@example.com"
    ⟨some "updateduser", none⟩ rfl

/-- C1: ownership isolation — when the todo found under `todo_id` is owned
by identity `A` and `B` is a distinct identity, `B`'s get, update and delete
on that id all fail with the 404 `Todo not found` outcome, and update and
delete leave the store unchanged. -/
theorem ownership_isolation (db : Store) (todo_id : String) (A B : AuthIdentity)
    (t : ToDoRec) (patch : TodoUpdate)
    (hfind : get_todo_by_id db todo_id = some t)
    (hown : t.user_id = A.id)
    (hAB : B.id ≠ A.id) :
    read_todo db todo_id B = Except.error todo_not_found ∧
    update_todo_item db todo_id patch B = (db, Except.error todo_not_found) ∧
    delete_todo_item db todo_id B = (db, Except.error todo_not_found) := by
  have hne : t.user_id ≠ B.id := by
    rw [hown]
    exact fun hc => hAB hc.symm
  refine ⟨?_, ?_, ?_⟩ <;>
    simp [read_todo, update_todo_item, delete_todo_item, hfind, hne]

/-- Witness for `ownership_isolation`: `otherIdentity` against
`demoIdentity`'s todo in the demo store. -/
theorem ownership_isolation_witness :
    read_todo demoStore "todo123" otherIdentity = Except.error todo_not_found ∧
    update_todo_item demoStore "todo123" ⟨none, none, some "completado"⟩
        otherIdentity = (demoStore, Except.error todo_not_found) ∧
    delete_todo_item demoStore "todo123" otherIdentity =
      (demoStore, Except.error todo_not_found) :=
  ownership_isolation demoStore "todo123" demoIdentity otherIdentity demoTodo
    ⟨none, none, some "completado"⟩ rfl rfl (by decide)

/-- C6: a partial update that sets only `state` changes `state` to the patch
value in both the returned and the stored row, and leaves `title`,
`description`, `id`, `user_id` and `created_at` at their prior values. -/
theorem todo_update_only_state (db : Store) (todo_id s : String) (t : ToDoRec)
    (hfind : get_todo_by_id db todo_id = some t) :
    (update_todo db todo_id ⟨none, none, some s⟩).2 = some { t with state := s } ∧
    get_todo_by_id (update_todo db todo_id ⟨none, none, some s⟩).1 todo_id =
      some { t with state := s } ∧
    ({ t with state := s } : ToDoRec).state = s ∧
    ({ t with state := s } : ToDoRec).title = t.title ∧
    ({ t with state := s } : ToDoRec).description = t.description ∧
    ({ t with state := s } : ToDoRec).id = t.id ∧
    ({ t with state := s } : ToDoRec).user_id = t.user_id ∧
    ({ t with state := s } : ToDoRec).created_at = t.created_at := by
  have hfind' : db.todos.find? (fun x => x.id == todo_id) = some t := hfind
  have hpt : (t.id == todo_id) = true := by
    simpa using find?_pred (fun x => x.id == todo_id) db.todos t hfind'
  have h2 : (({ t with state := s } : ToDoRec).id == todo_id) = true := hpt
  refine ⟨?_, ?_, rfl, rfl, rfl, rfl, rfl, rfl⟩
  · simp [update_todo, get_todo_by_id, hfind', TodoUpdate.apply]
  · have hm := find?_map_update (fun x => x.id == todo_id) db.todos t
      { t with state := s } hfind' h2
    simpa [update_todo, get_todo_by_id, hfind', TodoUpdate.apply] using hm

/-- Witness for `todo_update_only_state`: setting only `state := completado`
on the demo todo. -/
theorem todo_update_only_state_witness :
    (update_todo demoStore "todo123" ⟨none, none, some "completado"⟩).2 =
      some { demoTodo with state := "completado" } ∧
    get_todo_by_id
        (update_todo demoStore "todo123" ⟨none, none, some "completado"⟩).1
        "todo123" = some { demoTodo with state := "completado" } :=
  ⟨(todo_update_only_state demoStore "todo123" "completado" demoTodo rfl).1,
   (todo_update_only_state demoStore "todo123" "completado" demoTodo rfl).2.1⟩

/-- C9: login correctness — a stored user whose stored hash was produced
from password `pw` logs in with `(username, pw)` and receives a signed
(hence non-empty) access token with token type `bearer`; an unknown username
or a password rejected by `bcrypt.checkpw` yields the 401 failure with the
bearer challenge header. -/
theorem login_spec (db : Store) (st : Settings) (uname pw : String) :
    (∀ u seed, get_user_by_username db uname = some u →
        u.hashed_password = bcrypt_hashpw pw seed →
        login_for_access_token uname pw db st =
          Except.ok ⟨create_access_token [("sub", JValue.str u.username)] st,
            "bearer"⟩ ∧
        Token.encodeStr
          (create_access_token [("sub", JValue.str u.username)] st) ≠ "") ∧
    (get_user_by_username db uname = none →
        login_for_access_token uname pw db st =
          Except.error ⟨401, "Usuario o contraseña incorrectos",
            [("WWW-Authenticate", "Bearer")]⟩) ∧
    (∀ u, get_user_by_username db uname = some u →
        bcrypt_checkpw pw u.hashed_password = false →
        login_for_access_token uname pw db st =
          Except.error ⟨401, "Usuario o contraseña incorrectos",
            [("WWW-Authenticate", "Bearer")]⟩) := by
  refine ⟨?_, ?_, ?_⟩
  · intro u seed hu hh
    have hc : bcrypt_checkpw pw u.hashed_password = true := by
      rw [hh]
      exact bcrypt_checkpw_hashpw pw seed
    refine ⟨?_, ?_⟩
    · simp [login_for_access_token, authenticate_user, hu, hc]
    · exact encodeStr_signed_ne_empty
        ⟨st.ALGORITHM, [("sub", JValue.str u.username)], st.SECRET_KEY⟩
  · intro hn
    simp [login_for_access_token, authenticate_user, hn]
  · intro u hu hc
    simp [login_for_access_token, authenticate_user, hu, hc]

/-- Witness for `login_spec` on the demo store: correct credentials succeed,
an unknown username and a wrong password each fail with 401. -/
theorem login_spec_witness :
    login_for_access_token "testuser" "secret123" demoStore demoSettings =
      Except.ok ⟨create_access_token [("sub", JValue.str "testuser")] demoSettings,
        "bearer"⟩ ∧
    login_for_access_token "ghost" "secret123" demoStore demoSettings =
      Except.error ⟨401, "Usuario o contraseña incorrectos",
        [("WWW-Authenticate", "Bearer")]⟩ ∧
    login_for_access_token "testuser" "wrong" demoStore demoSettings =
      Except.error ⟨401, "Usuario o contraseña incorrectos",
        [("WWW-Authenticate", "Bearer")]⟩ :=
  ⟨((login_spec demoStore demoSettings "testuser" "secret123").1 demoUser 3
      rfl rfl).1,
   (login_spec demoStore demoSettings "ghost" "secret123").2.1 rfl,
   (login_spec demoStore demoSettings "testuser" "wrong").2.2 demoUser rfl
     (by decide)⟩

/-- C5 counterexample: the claim says a patch supplying only `username`
passes the remaining fields through unchanged and returns the updated user,
but `update_user` hashes `user_update.password` before checking it is set,
so this very patch aborts with `AttributeError` and returns no user. -/
theorem user_update_username_only_counterexample :
    (update_user demoStore 3 "test@example.com" ⟨some "updateduser", none⟩).2 =
      Except.error PyError.attributeError ∧
    (update_user demoStore 3 "test@example.com" ⟨some "updateduser", none⟩).1 =
      demoStore :=
  ⟨rfl, rfl⟩

/-- C5 amended: partial merge holds whenever the patch sets `password`: the
password is hashed and replaces `hashed_password`, `username` is replaced
exactly when present, and `email`, `id` and `created_at` pass through
unchanged; a patch without `password` instead aborts before any write. -/
theorem update_user_merge_requires_password (db : Store) (seed : Nat)
    (email pw : String) (p : UserUpdate) (u : UserRec)
    (hp : p.password = some pw)
    (hu : get_user_by_email db email = some u) :
    (update_user db seed email p).2 =
      Except.ok (some { u with
        username := p.username.getD u.username
        hashed_password := bcrypt_hashpw pw seed }) ∧
    bcrypt_checkpw pw (bcrypt_hashpw pw seed) = true ∧
    ({ u with username := p.username.getD u.username,
              hashed_password := bcrypt_hashpw pw seed } : UserRec).email =
      u.email ∧
    ({ u with username := p.username.getD u.username,
              hashed_password := bcrypt_hashpw pw seed } : UserRec).id = u.id ∧
    ({ u with username := p.username.getD u.username,
              hashed_password := bcrypt_hashpw pw seed } : UserRec).created_at =
      u.created_at ∧
    (p.username = none →
      ({ u with username := p.username.getD u.username,
                hashed_password := bcrypt_hashpw pw seed } : UserRec).username =
        u.username) := by
  refine ⟨?_, bcrypt_checkpw_hashpw pw seed, rfl, rfl, rfl, ?_⟩
  · simp [update_user, hp, hu]
  · intro hn
    simp [hn]

/-- Witness for `update_user_merge_requires_password`: a password-only patch
on the demo user re-hashes the password and keeps username and email. -/
theorem update_user_merge_requires_password_witness :
    (update_user demoStore 7 "test@example.com" ⟨none, some "brandnew"⟩).2 =
      Except.ok (some { demoUser with
        username := (none : Option String).getD demoUser.username
        hashed_password := bcrypt_hashpw "brandnew" 7 }) :=
  (update_user_merge_requires_password demoStore 7 "test@example.com"
    "brandnew" ⟨none, some "brandnew"⟩ demoUser rfl rfl).1

/-- C7 counterexample: a todo created through the public create operation
(state validated, defaulting to `pendiente`) and then updated through the
public update operation with `state := "en_progreso"` ends up stored with a
state outside the two-value enumeration — the update path rejects nothing. -/
theorem todo_state_open_on_update_counterexample :
    TodoCreate.validate ⟨some "Test Todo", none, none⟩ =
      some ⟨"Test Todo", none, "pendiente"⟩ ∧
    (update_todo_item
        (create_user_todo demoStoreNoTodos ⟨"Test Todo", none, "pendiente"⟩
          "user123" "todo201" 1).1
        "todo201" ⟨none, none, some "en_progreso"⟩ demoIdentity).2 =
      Except.ok (some ⟨"todo201", "Test Todo", none, "en_progreso", 1, "user123"⟩) ∧
    get_todo_by_id
        (update_todo_item
          (create_user_todo demoStoreNoTodos ⟨"Test Todo", none, "pendiente"⟩
            "user123" "todo201" 1).1
          "todo201" ⟨none, none, some "en_progreso"⟩ demoIdentity).1
        "todo201" =
      some ⟨"todo201", "Test Todo", none, "en_progreso", 1, "user123"⟩ ∧
    ¬ ("en_progreso" = "pendiente" ∨ "en_progreso" = "completado") := by
  refine ⟨rfl, rfl, rfl, by decide⟩

/-- C7 amended: creation-time validation does keep `state` inside
{`pendiente`, `completado`} and defaults it to `pendiente`, but the update
path accepts any string as `state`, so states outside the enumeration are
reachable through update. -/
theorem todo_state_enumeration_amended :
    (∀ i c, TodoCreate.validate i = some c →
        c.state = "pendiente" ∨ c.state = "completado") ∧
    (∀ i c, TodoCreate.validate i = some c → i.state = none →
        c.state = "pendiente") ∧
    (∀ db tid t s, get_todo_by_id db tid = some t →
        (update_todo db tid ⟨none, none, some s⟩).2 =
          some { t with state := s }) := by
  refine ⟨?_, ?_, ?_⟩
  · rintro ⟨it, idesc, ist⟩ c h
    cases it with
    | none => simp [TodoCreate.validate] at h
    | some ttl =>
        cases ist with
        | none =>
            simp [TodoCreate.validate] at h
            rw [← h]
            exact Or.inl rfl
        | some s0 =>
            by_cases hps : s0 = "pendiente" ∨ s0 = "completado"
            · simp [TodoCreate.validate, hps] at h
              rw [← h]
              exact hps
            · simp [TodoCreate.validate, hps] at h
  · rintro ⟨it, idesc, ist⟩ c h hstate
    cases it with
    | none => simp [TodoCreate.validate] at h
    | some ttl =>
        cases ist with
        | none =>
            simp [TodoCreate.validate] at h
            rw [← h]
        | some s0 => simp at hstate
  · intro db tid t s hf
    have hf' : db.todos.find? (fun x => x.id == tid) = some t := hf
    simp [update_todo, get_todo_by_id, hf', TodoUpdate.apply]

/-- Witness for `todo_state_enumeration_amended`: create-time validation on
a concrete input, and a concrete out-of-enumeration update that succeeds. -/
theorem todo_state_enumeration_amended_witness :
    ("pendiente" = "pendiente" ∨ "pendiente" = "completado") ∧
    (update_todo demoStore "todo123" ⟨none, none, some "en_progreso"⟩).2 =
      some { demoTodo with state := "en_progreso" } :=
  ⟨todo_state_enumeration_amended.1 ⟨some "T", none, none⟩
      ⟨"T", none, "pendiente"⟩ rfl,
   todo_state_enumeration_amended.2.2 demoStore "todo123" demoTodo
     "en_progreso" rfl⟩

/-- C8 counterexample: a title of 101 characters passes creation validation
and is persisted verbatim — nothing rejects it before the store. -/
theorem todo_title_length_counterexample :
    TodoCreate.validate ⟨some longTitle, none, none⟩ =
      some ⟨longTitle, none, "pendiente"⟩ ∧
    ((create_user_todo demoStore ⟨longTitle, none, "pendiente"⟩ "user123"
        "todo202" 2).2).title.length = 101 ∧
    get_todo_by_id
        (create_user_todo demoStore ⟨longTitle, none, "pendiente"⟩ "user123"
          "todo202" 2).1 "todo202" =
      some ⟨"todo202", longTitle, none, "pendiente", 2, "user123"⟩ ∧
    ¬ (101 ≤ 100) := by
  refine ⟨rfl, by decide, by decide, by decide⟩

/-- C8 amended: `title` is required — a missing title fails validation — but
no length bound is enforced: any string (of any length, including over 100
characters, and including the empty string) validates and is persisted
verbatim by the create operation. -/
theorem todo_title_unbounded_amended :
    (∀ i, i.title = none → TodoCreate.validate i = none) ∧
    (∀ (ttl : String) (d : Option String),
        TodoCreate.validate ⟨some ttl, d, none⟩ = some ⟨ttl, d, "pendiente"⟩) ∧
    (∀ db c uid nid now,
        ((create_user_todo db c uid nid now).2).title = c.title ∧
        (create_user_todo db c uid nid now).1.todos =
          db.todos ++ [(create_user_todo db c uid nid now).2]) := by
  refine ⟨?_, ?_, ?_⟩
  · intro i hi
    simp [TodoCreate.validate, hi]
  · intro ttl d
    rfl
  · intro db c uid nid now
    exact ⟨rfl, rfl⟩

/-- Witness for `todo_title_unbounded_amended`: a missing title is rejected
while the 101-character title is accepted unchanged. -/
theorem todo_title_unbounded_amended_witness :
    TodoCreate.validate ⟨none, none, none⟩ = none ∧
    TodoCreate.validate ⟨some longTitle, none, none⟩ =
      some ⟨longTitle, none, "pendiente"⟩ :=
  ⟨todo_title_unbounded_amended.1 ⟨none, none, none⟩ rfl,
   todo_title_unbounded_amended.2.1 longTitle none⟩

/-- C4, evaluated at the failing input: deleting the demo user — who owns a
todo — does not cascade; because `User.todos` declares no delete cascade and
`ToDo.user_id` is NOT NULL, the flush fails with `IntegrityError`, leaving
the user row and the owned todo in place (both still found afterwards). -/
theorem delete_user_cascade_bug :
    delete_user demoStore "test@example.com" =
      (demoStore, Except.error DBError.integrityError) ∧
    get_todo_by_id demoStore "todo123" = some demoTodo ∧
    get_user_by_email demoStore "test@example.com" = some demoUser :=
  ⟨rfl, rfl, rfl⟩

/-- C2: `get_current_user` fails — always with the single 401
`Invalid credentials` outcome — exactly when the token is empty/absent or
malformed, signed under a different algorithm, signed with a different
secret, missing a string `sub` claim (absent or null), or names a username
with no stored user; otherwise it succeeds and returns exactly the minimal
`{id, email}` identity of the resolved user. -/
theorem get_current_user_spec (token : Token) (db : Store) (st : Settings) :
    (get_current_user token db st = Except.error credentials_exception ↔
      ((∃ raw, token = Token.malformed raw) ∨
       (∃ t, token = Token.signed t ∧
          (t.alg ≠ st.ALGORITHM ∨ t.key ≠ st.SECRET_KEY)) ∨
       (∃ t, token = Token.signed t ∧ t.alg = st.ALGORITHM ∧
          t.key = st.SECRET_KEY ∧
          ∀ s, payload_get t.claims "sub" ≠ some (JValue.str s)) ∨
       (∃ t s, token = Token.signed t ∧ t.alg = st.ALGORITHM ∧
          t.key = st.SECRET_KEY ∧
          payload_get t.claims "sub" = some (JValue.str s) ∧
          get_user_by_username db s = none))) ∧
    (∀ a, get_current_user token db st = Except.ok a ↔
      ∃ t s user, token = Token.signed t ∧ t.alg = st.ALGORITHM ∧
        t.key = st.SECRET_KEY ∧
        payload_get t.claims "sub" = some (JValue.str s) ∧
        get_user_by_username db s = some user ∧
        a = ⟨user.id, user.email⟩) ∧
    (∀ e, get_current_user token db st = Except.error e →
      e = credentials_exception) := by
  cases token with
  | malformed raw =>
      have hres : get_current_user (Token.malformed raw) db st =
          Except.error credentials_exception := rfl
      refine ⟨⟨fun _ => Or.inl ⟨raw, rfl⟩, fun _ => hres⟩, ?_, ?_⟩
      · intro a
        constructor
        · intro h
          rw [hres] at h
          simp at h
        · rintro ⟨t, s, user, htok, _⟩
          simp at htok
      · intro e he
        rw [hres] at he
        injection he with h
        exact h.symm
  | signed t =>
      by_cases hcond : t.alg = st.ALGORITHM ∧ t.key = st.SECRET_KEY
      · have hdec : jwt_decode (Token.signed t) st.SECRET_KEY [st.ALGORITHM] =
            Except.ok t.claims := by
          simp [jwt_decode, hcond.1, hcond.2]
        cases hsub : payload_get t.claims "sub" with
        | none =>
            have hres : get_current_user (Token.signed t) db st =
                Except.error credentials_exception := by
              simp [get_current_user, hdec, hsub]
            refine ⟨⟨fun _ => Or.inr (Or.inr (Or.inl
                ⟨t, rfl, hcond.1, hcond.2, fun s hs => by simp [hsub] at hs⟩)),
              fun _ => hres⟩, ?_, ?_⟩
            · intro a
              constructor
              · intro h
                rw [hres] at h
                simp at h
              · rintro ⟨t', s', user, htok, halg, hkey, hsubeq, hlook, ha⟩
                cases htok
                simp [hsub] at hsubeq
            · intro e he
              rw [hres] at he
              injection he with h
              exact h.symm
        | some jv =>
            cases jv with
            | null =>
                have hres : get_current_user (Token.signed t) db st =
                    Except.error credentials_exception := by
                  simp [get_current_user, hdec, hsub]
                refine ⟨⟨fun _ => Or.inr (Or.inr (Or.inl
                    ⟨t, rfl, hcond.1, hcond.2, fun s hs => by
                      simp [hsub] at hs⟩)),
                  fun _ => hres⟩, ?_, ?_⟩
                · intro a
                  constructor
                  · intro h
                    rw [hres] at h
                    simp at h
                  · rintro ⟨t', s', user, htok, halg, hkey, hsubeq, hlook, ha⟩
                    cases htok
                    simp [hsub] at hsubeq
                · intro e he
                  rw [hres] at he
                  injection he with h
                  exact h.symm
            | str s =>
                cases hlook : get_user_by_username db s with
                | none =>
                    have hres : get_current_user (Token.signed t) db st =
                        Except.error credentials_exception := by
                      simp [get_current_user, hdec, hsub, hlook]
                    refine ⟨⟨fun _ => Or.inr (Or.inr (Or.inr
                        ⟨t, s, rfl, hcond.1, hcond.2, hsub, hlook⟩)),
                      fun _ => hres⟩, ?_, ?_⟩
                    · intro a
                      constructor
                      · intro h
                        rw [hres] at h
                        simp at h
                      · rintro ⟨t', s', user, htok, halg, hkey, hsubeq, hlook', ha⟩
                        cases htok
                        rw [hsub] at hsubeq
                        simp only [Option.some.injEq, JValue.str.injEq] at hsubeq
                        subst hsubeq
                        rw [hlook] at hlook'
                        simp at hlook'
                    · intro e he
                      rw [hres] at he
                      injection he with h
                      exact h.symm
                | some user =>
                    have hres : get_current_user (Token.signed t) db st =
                        Except.ok ⟨user.id, user.email⟩ := by
                      simp [get_current_user, hdec, hsub, hlook]
                    refine ⟨?_, ?_, ?_⟩
                    · constructor
                      · intro h
                        rw [hres] at h
                        simp at h
                      · rintro (⟨raw, htok⟩ | ⟨t', htok, hor⟩ |
                          ⟨t', htok, halg, hkey, hall⟩ |
                          ⟨t', s', htok, halg, hkey, hsubeq, hlooknone⟩)
                        · simp at htok
                        · cases htok
                          rcases hor with h | h
                          · exact absurd hcond.1 h
                          · exact absurd hcond.2 h
                        · cases htok
                          exact absurd hsub (hall s)
                        · cases htok
                          rw [hsub] at hsubeq
                          simp only [Option.some.injEq, JValue.str.injEq] at hsubeq
                          subst hsubeq
                          rw [hlook] at hlooknone
                          simp at hlooknone
                    · intro a
                      constructor
                      · intro h
                        rw [hres] at h
                        injection h with ha
                        exact ⟨t, s, user, rfl, hcond.1, hcond.2, hsub, hlook,
                          ha.symm⟩
                      · rintro ⟨t', s', user', htok, halg, hkey, hsubeq, hlook', ha⟩
                        cases htok
                        rw [hsub] at hsubeq
                        simp only [Option.some.injEq, JValue.str.injEq] at hsubeq
                        subst hsubeq
                        rw [hlook] at hlook'
                        injection hlook' with hu
                        subst hu
                        rw [hres, ha]
                    · intro e he
                      rw [hres] at he
                      simp at he
      · have hnotc : ¬ (t.alg = st.ALGORITHM ∧ t.key = st.SECRET_KEY) := hcond
        have hdec : jwt_decode (Token.signed t) st.SECRET_KEY [st.ALGORITHM] =
            Except.error () := by
          simp only [jwt_decode, List.mem_singleton]
          rw [if_neg hnotc]
        have hres : get_current_user (Token.signed t) db st =
            Except.error credentials_exception := by
          simp [get_current_user, hdec]
        refine ⟨⟨fun _ => Or.inr (Or.inl ⟨t, rfl, not_and_or.mp hnotc⟩),
          fun _ => hres⟩, ?_, ?_⟩
        · intro a
          constructor
          · intro h
            rw [hres] at h
            simp at h
          · rintro ⟨t', s', user, htok, halg, hkey, _⟩
            cases htok
            exact absurd ⟨halg, hkey⟩ hnotc
        · intro e he
          rw [hres] at he
          injection he with h
          exact h.symm

/-- Witness for `get_current_user_spec`: a malformed token and a token
signed with the wrong secret both fail with `Invalid credentials`, while a
well-formed token for the stored demo user resolves to its minimal
identity. -/
theorem get_current_user_spec_witness :
    get_current_user (Token.malformed "not.a.jwt.token") demoStore demoSettings =
      Except.error credentials_exception ∧
    get_current_user
        (Token.signed ⟨"HS256", [("sub", JValue.str "testuser")],
          "wrong_secret_key"⟩) demoStore demoSettings =
      Except.error credentials_exception ∧
    get_current_user
        (Token.signed ⟨"HS256", [("sub", JValue.str "testuser")],
          "test_secret_key"⟩) demoStore demoSettings =
      Except.ok ⟨"user123", "test@example.com"⟩ :=
  ⟨((get_current_user_spec (Token.malformed "not.a.jwt.token") demoStore
      demoSettings).1).mpr (Or.inl ⟨"not.a.jwt.token", rfl⟩),
   ((get_current_user_spec
      (Token.signed ⟨"HS256", [("sub", JValue.str "testuser")],
        "wrong_secret_key"⟩) demoStore demoSettings).1).mpr
     (Or.inr (Or.inl ⟨_, rfl, Or.inr (by decide)⟩)),
   ((get_current_user_spec
      (Token.signed ⟨"HS256", [("sub", JValue.str "testuser")],
        "test_secret_key"⟩) demoStore demoSettings).2.1
      ⟨"user123", "test@example.com"⟩).mpr
     ⟨_, "testuser", demoUser, rfl, rfl, rfl, rfl, rfl, rfl⟩⟩

end TodoApi
